import Mathlib

/-
Verification development for the anomaly-detection core of
chapmans-peek-oracle (the `app/api/anomaly/route.ts` handler reproduced in
the repository README).  The four detectors, the aggregator of the POST
handler, and the statistics primitives are embedded as Lean functions.

Modelling conventions:
* JavaScript float64 arithmetic is idealized as real-number arithmetic.
  Where a claim is specifically about IEEE NaN / Infinity behaviour
  (division by a zero mean, a missing field propagating as NaN), a
  dedicated `JsFloat` model with explicit `nan` / `posInf` / `negInf`
  values is used; `JsFloat` ignores signed zero and overflow, which no
  claim depends on.
* `Date.now()` is modelled as an explicit `now : ℤ` parameter threaded to
  every detector; it only ever lands in the `timestamp` field.
* The `message` string (built with `toFixed` presentation formatting) and
  the open heterogeneous `details` map of a finding are not modelled: the
  spec marks both as non-contractual ("not a stable machine contract",
  "not re-parsed by the aggregator") and no claim mentions their content.
* JavaScript `Array.prototype.sort` is guaranteed stable (ES2019); it is
  modelled by `List.insertionSort`, which is a stable sort.
* Real-number definitions are `noncomputable` (real arithmetic and
  `Real.sqrt` have no executable representation); concrete evaluations in
  witnesses are carried out by `simp`/`norm_num` instead of `decide`.
-/

namespace Oracle

open Classical

/-- Severity labels of a finding, a closed set in the source
(`'low' | 'medium' | 'high' | 'critical'`). -/
inductive Severity where
  | low
  | medium
  | high
  | critical
deriving DecidableEq

/-- The `severityOrder` record of the POST handler:
`{ critical: 0, high: 1, medium: 2, low: 3 }`. -/
def severityOrder : Severity → ℕ
  | .critical => 0
  | .high => 1
  | .medium => 2
  | .low => 3

/-- The `type` field of a finding, a closed set
(`'zscore' | 'volume_spike' | 'price_deviation' | 'lof'`). -/
inductive AnomalyType where
  | zscore
  | volume_spike
  | price_deviation
  | lof
deriving DecidableEq

/-- Position of each detector in the invocation order of the POST handler
(zscore, volume_spike, price_deviation, lof).  Used only in statements. -/
def invocationIndex : AnomalyType → ℕ
  | .zscore => 0
  | .volume_spike => 1
  | .price_deviation => 2
  | .lof => 3

/-- The `AnomalyResult` interface of the source (without the
presentation-only `message` and `details` fields, see header note).
The score type is a parameter so that the IEEE-faithful `JsFloat`
variants of the detectors can reuse the structure. -/
structure AnomalyResult (α : Type) where
  type : AnomalyType
  severity : Severity
  score : α
  threshold : ℝ
  timestamp : ℤ
  ticker : String

/-- The `PriceData` interface: one historical observation. -/
structure PriceData where
  timestamp : ℤ
  price : ℝ
  volume : ℝ

/-- The `currentData` object of the request body (well-typed case). -/
structure CurrentData where
  price : ℝ
  volume : ℝ

/-- A `{ price, volume }` pair as consumed by the LOF detector. -/
structure PricePoint where
  price : ℝ
  volume : ℝ

/-- `mean`: `arr.reduce((a, b) => a + b, 0) / arr.length`.  Note that the
source does NOT throw on an empty array: `[].reduce(f, 0) = 0` and
`0 / 0` is the float value NaN (see `meanJs` for the NaN-faithful value
on the empty list; every call inside the detectors is length-guarded). -/
noncomputable def mean (arr : List ℝ) : ℝ :=
  arr.sum / arr.length

/-- `standardDeviation`: population standard deviation
`sqrt(mean((x - mean arr)^2))`. -/
noncomputable def standardDeviation (arr : List ℝ) : ℝ :=
  let avg := mean arr
  let squareDiffs := arr.map (fun value => (value - avg) ^ 2)
  Real.sqrt (mean squareDiffs)

/-- `detectZScoreAnomaly` of the source. -/
noncomputable def detectZScoreAnomaly (currentPrice : ℝ) (historicalPrices : List ℝ)
    (ticker : String) (threshold : ℝ) (now : ℤ) : Option (AnomalyResult ℝ) :=
  if historicalPrices.length < 10 then none else
  let avg := mean historicalPrices
  let std := standardDeviation historicalPrices
  if std = 0 then none else
  let zScore := (currentPrice - avg) / std
  let absZScore := |zScore|
  if absZScore > threshold then
    some { type := .zscore
           severity :=
             if absZScore > 4 then .critical
             else if absZScore > 3 then .high
             else if absZScore > 2.5 then .medium
             else .low
           score := absZScore
           threshold := threshold
           timestamp := now
           ticker := ticker }
  else none

/-- `detectVolumeSpikeAnomaly` of the source.  Real-number division makes
`x / 0 = 0` here; the IEEE-faithful zero-mean behaviour (Infinity / NaN
ratio) is modelled by `detectVolumeSpikeAnomalyJs` below. -/
noncomputable def detectVolumeSpikeAnomaly (currentVolume : ℝ) (historicalVolumes : List ℝ)
    (ticker : String) (threshold : ℝ) (now : ℤ) : Option (AnomalyResult ℝ) :=
  if historicalVolumes.length < 10 then none else
  let avgVolume := mean historicalVolumes
  let ratio := currentVolume / avgVolume
  if ratio > threshold then
    some { type := .volume_spike
           severity :=
             if ratio > 10 then .critical
             else if ratio > 5 then .high
             else if ratio > 3 then .medium
             else .low
           score := ratio
           threshold := threshold
           timestamp := now
           ticker := ticker }
  else none

/-- `detectPriceDeviation` of the source; `prices.slice(-maWindow)` is
`drop (length - maWindow)`. -/
noncomputable def detectPriceDeviation (currentPrice : ℝ) (prices : List ℝ)
    (ticker : String) (maWindow : ℕ) (threshold : ℝ) (now : ℤ) : Option (AnomalyResult ℝ) :=
  if prices.length < maWindow then none else
  let recentPrices := prices.drop (prices.length - maWindow)
  let movingAverage := mean recentPrices
  let deviation := (currentPrice - movingAverage) / movingAverage * 100
  let absDeviation := |deviation|
  if absDeviation > threshold then
    some { type := .price_deviation
           severity :=
             if absDeviation > 15 then .critical
             else if absDeviation > 10 then .high
             else if absDeviation > 5 then .medium
             else .low
           score := absDeviation
           threshold := threshold
           timestamp := now
           ticker := ticker }
  else none

/-- `Math.min(...xs)` for the nonempty lists the LOF detector feeds it
(the `[]` value is arbitrary: the detector runs only past a
`length >= 20` guard). -/
noncomputable def listMin : List ℝ → ℝ
  | [] => 0
  | x :: xs => xs.foldl min x

/-- `Math.max(...xs)`, same convention as `listMin`. -/
noncomputable def listMax : List ℝ → ℝ
  | [] => 0
  | x :: xs => xs.foldl max x

/-- JavaScript `x || 1` on a number: substitute `1` when `x` is `0`
(the only falsy real value; the source applies it to non-NaN values). -/
noncomputable def orOne (x : ℝ) : ℝ :=
  if x = 0 then 1 else x

/-- Euclidean distance in normalized (price, volume) space; the source
inlines `Math.sqrt(Math.pow(.., 2) + Math.pow(.., 2))` at both uses. -/
noncomputable def pointDistance (p q : PricePoint) : ℝ :=
  Real.sqrt ((p.price - q.price) ^ 2 + (p.volume - q.volume) ^ 2)

/-- Mean of the `k` smallest Euclidean distances from `p` to the points
of `pts` (`map` distance, `sort((a, b) => a - b)` ascending,
`slice(0, k)`, `mean`) — the source inlines this computation twice in
`detectLOFAnomaly`: once for the current point against all historical
points and once per historical point against all the others. -/
noncomputable def kDistanceOf (pts : List PricePoint) (p : PricePoint) (k : ℕ) : ℝ :=
  mean ((List.insertionSort (· ≤ ·) (pts.map fun h => pointDistance p h)).take k)

/-- `detectLOFAnomaly` of the source.  The index-based leave-one-out
`filter((__, j) => j !== i)` removes exactly the element at position `i`
(indices are unique), i.e. `List.eraseIdx`; `map((_, i) => ...)` reading
`normalizedHistorical[i]` is modelled with `List.enum`.  The numeric
ascending `sort((a, b) => a - b)` is modelled by sorting with `≤`. -/
noncomputable def detectLOFAnomaly (currentPrice currentVolume : ℝ)
    (historicalData : List PricePoint) (ticker : String) (threshold : ℝ) (now : ℤ) :
    Option (AnomalyResult ℝ) :=
  if historicalData.length < 20 then none else
  let prices := historicalData.map (·.price)
  let volumes := historicalData.map (·.volume)
  let priceMin := listMin prices
  let priceMax := listMax prices
  let volumeMin := listMin volumes
  let volumeMax := listMax volumes
  let normalizedCurrent : PricePoint :=
    { price := (currentPrice - priceMin) / orOne (priceMax - priceMin)
      volume := (currentVolume - volumeMin) / orOne (volumeMax - volumeMin) }
  let normalizedHistorical := historicalData.map (fun d =>
    ({ price := (d.price - priceMin) / orOne (priceMax - priceMin)
       volume := (d.volume - volumeMin) / orOne (volumeMax - volumeMin) } : PricePoint))
  let k := min 5 (historicalData.length - 1)
  let avgKDistance := kDistanceOf normalizedHistorical normalizedCurrent k
  let historicalKDistances := normalizedHistorical.enum.map (fun q =>
    kDistanceOf (normalizedHistorical.eraseIdx q.1) q.2 k)
  let avgHistoricalKDistance := mean historicalKDistances
  let lofScore := avgKDistance / orOne avgHistoricalKDistance
  if lofScore > threshold then
    some { type := .lof
           severity :=
             if lofScore > 3 then .critical
             else if lofScore > 2 then .high
             else if lofScore > 1.5 then .medium
             else .low
           score := lofScore
           threshold := threshold
           timestamp := now
           ticker := ticker }
  else none

/-- The comparator of the POST handler,
`severityOrder[a.severity] - severityOrder[b.severity]`, as the ordering
relation it sorts by. -/
def sevLE (a b : AnomalyResult ℝ) : Prop :=
  severityOrder a.severity ≤ severityOrder b.severity

instance : DecidableRel sevLE := fun a b => by unfold sevLE; infer_instance

/-- The `typesList` accumulation of the POST handler:
`forEach(a => if (!typesList.includes(a.type)) typesList.push(a.type))`. -/
def typesAccum (acc : List AnomalyType) : List (AnomalyResult ℝ) → List AnomalyType
  | [] => acc
  | a :: rest => typesAccum (if a.type ∈ acc then acc else acc ++ [a.type]) rest

/-- The `summary` object of the response. -/
structure Summary where
  hasAnomalies : Bool
  highestSeverity : Option Severity
  types : List AnomalyType

/-- The successful response body of the POST handler (`'none'` sentinel of
`highestSeverity` = `Option.none`). -/
structure EvalResult where
  ticker : String
  timestamp : ℤ
  anomalyCount : ℕ
  anomalies : List (AnomalyResult ℝ)
  summary : Summary

/-- The non-null findings of the four detectors, in invocation order and
with their default thresholds: the `anomalies.push` sequence of the POST
handler, before sorting.  The LOF detector receives the historical
objects themselves (TypeScript structural typing); here the
`{price, volume}` view of each `PriceData` is taken explicitly. -/
noncomputable def evalCollected (ticker : String) (currentData : CurrentData)
    (historicalData : List PriceData) (now : ℤ) : List (AnomalyResult ℝ) :=
  let historicalPrices := historicalData.map (·.price)
  let historicalVolumes := historicalData.map (·.volume)
  (detectZScoreAnomaly currentData.price historicalPrices ticker 2.5 now).toList ++
    ((detectVolumeSpikeAnomaly currentData.volume historicalVolumes ticker 3 now).toList ++
      ((detectPriceDeviation currentData.price historicalPrices ticker 20 5 now).toList ++
        (detectLOFAnomaly currentData.price currentData.volume
          (historicalData.map (fun d => { price := d.price, volume := d.volume }))
          ticker 1.5 now).toList))

/-- The Evaluate core of the POST handler: run the four detectors in
invocation order, collect non-null findings, stably sort by severity
rank, build the summary. -/
noncomputable def evaluate (ticker : String) (currentData : CurrentData)
    (historicalData : List PriceData) (now : ℤ) : EvalResult :=
  let anomalies :=
    List.insertionSort sevLE (evalCollected ticker currentData historicalData now)
  { ticker := ticker
    timestamp := now
    anomalyCount := anomalies.length
    anomalies := anomalies
    summary :=
      { hasAnomalies := decide (anomalies.length > 0)
        highestSeverity :=
          match anomalies with
          | [] => none
          | a :: _ => some a.severity
        types := typesAccum [] anomalies } }

/-- The request validation of the POST handler:
`if (!ticker || !currentData || !historicalData) return 400`.  A missing
object is `none`; for the string `ticker` the empty string is also falsy.
Note the single generic message regardless of which field is absent. -/
noncomputable def handlePost (ticker : Option String) (currentData : Option CurrentData)
    (historicalData : Option (List PriceData)) (now : ℤ) : Except String EvalResult :=
  match ticker, currentData, historicalData with
  | some t, some c, some h =>
    if t = "" then Except.error "Missing required data"
    else Except.ok (evaluate t c h now)
  | _, _, _ => Except.error "Missing required data"

/-- IEEE-double values for the claims that are specifically about NaN and
Infinity.  Signed zero and overflow are ignored (no claim depends on
them). -/
inductive JsFloat where
  | fin (x : ℝ)
  | posInf
  | negInf
  | nan

/-- IEEE division: `a / 0` is `±Infinity` for `a ≠ 0` and `NaN` for
`a = 0` (divisor zero taken as positive zero, see `JsFloat`). -/
noncomputable def jsDiv : JsFloat → JsFloat → JsFloat
  | .nan, _ => .nan
  | .fin _, .nan => .nan
  | .posInf, .nan => .nan
  | .negInf, .nan => .nan
  | .fin a, .fin b =>
    if b = 0 then (if 0 < a then .posInf else if a < 0 then .negInf else .nan)
    else .fin (a / b)
  | .posInf, .fin b => if b < 0 then .negInf else .posInf
  | .negInf, .fin b => if b < 0 then .posInf else .negInf
  | .fin _, .posInf => .fin 0
  | .fin _, .negInf => .fin 0
  | .posInf, .posInf => .nan
  | .posInf, .negInf => .nan
  | .negInf, .posInf => .nan
  | .negInf, .negInf => .nan

/-- IEEE subtraction (NaN propagates; `∞ - ∞` is NaN). -/
noncomputable def jsSub : JsFloat → JsFloat → JsFloat
  | .nan, _ => .nan
  | .fin _, .nan => .nan
  | .posInf, .nan => .nan
  | .negInf, .nan => .nan
  | .fin a, .fin b => .fin (a - b)
  | .posInf, .fin _ => .posInf
  | .negInf, .fin _ => .negInf
  | .fin _, .posInf => .negInf
  | .fin _, .negInf => .posInf
  | .posInf, .posInf => .nan
  | .posInf, .negInf => .posInf
  | .negInf, .posInf => .negInf
  | .negInf, .negInf => .nan

/-- `Math.abs` on a JsFloat. -/
noncomputable def jsAbs : JsFloat → JsFloat
  | .fin a => .fin |a|
  | .posInf => .posInf
  | .negInf => .posInf
  | .nan => .nan

/-- JavaScript `v > t` for a JsFloat `v` against a finite threshold `t`:
false whenever `v` is NaN. -/
def jsGtR : JsFloat → ℝ → Prop
  | .fin x, t => t < x
  | .posInf, _ => True
  | .negInf, _ => False
  | .nan, _ => False

/-- The value the source `mean` really takes, with IEEE division:
`NaN` on the empty list (`0 / 0`), and `sum / length` otherwise. -/
noncomputable def meanJs (arr : List ℝ) : JsFloat :=
  jsDiv (.fin arr.sum) (.fin arr.length)

/-- `detectVolumeSpikeAnomaly` with the IEEE-faithful division of the
ratio (history volumes themselves well-typed finite numbers).  Mirrors
the source exactly; used for the unguarded zero-mean claims. -/
noncomputable def detectVolumeSpikeAnomalyJs (currentVolume : ℝ) (historicalVolumes : List ℝ)
    (ticker : String) (threshold : ℝ) (now : ℤ) : Option (AnomalyResult JsFloat) :=
  if historicalVolumes.length < 10 then none else
  let avgVolume := mean historicalVolumes
  let ratio := jsDiv (.fin currentVolume) (.fin avgVolume)
  if jsGtR ratio threshold then
    some { type := .volume_spike
           severity :=
             if jsGtR ratio 10 then .critical
             else if jsGtR ratio 5 then .high
             else if jsGtR ratio 3 then .medium
             else .low
           score := ratio
           threshold := threshold
           timestamp := now
           ticker := ticker }
  else none

/-- `detectZScoreAnomaly` when the current price comes in as a possibly
absent duck-typed field: `undefined` entering arithmetic is NaN, so the
current price is a `JsFloat`.  The historical prices are well-typed.
Mirrors the source exactly; used for the missing-field claims. -/
noncomputable def detectZScoreAnomalyJs (currentPrice : JsFloat) (historicalPrices : List ℝ)
    (ticker : String) (threshold : ℝ) (now : ℤ) : Option (AnomalyResult JsFloat) :=
  if historicalPrices.length < 10 then none else
  let avg := mean historicalPrices
  let std := standardDeviation historicalPrices
  if std = 0 then none else
  let zScore := jsDiv (jsSub currentPrice (.fin avg)) (.fin std)
  let absZScore := jsAbs zScore
  if jsGtR absZScore threshold then
    some { type := .zscore
           severity :=
             if jsGtR absZScore 4 then .critical
             else if jsGtR absZScore 3 then .high
             else if jsGtR absZScore 2.5 then .medium
             else .low
           score := absZScore
           threshold := threshold
           timestamp := now
           ticker := ticker }
  else none

/-- Modelled from the spec's words (§3, "distinct_kinds: set-derived
ordered sequence of kind, first-occurrence order"): keep the first
occurrence of every kind, drop later duplicates.  Stated against the
source's `typesAccum` in the C2 theorem. -/
def firstOccurrenceDedup : List AnomalyType → List AnomalyType
  | [] => []
  | k :: rest => k :: firstOccurrenceDedup (rest.filter (fun x => x ≠ k))
termination_by l => l.length
decreasing_by
  simp only [List.length_cons]
  exact Nat.lt_succ_of_le (List.length_filter_le _ _)

/-! ### The duck-typed request path

The request body is loosely typed: the top-level falsy check of the POST
handler does not look inside `currentData`, so an object with an absent
`price` or `volume` field passes validation and reaches the detectors,
where the `undefined` value enters float arithmetic as NaN.  The
definitions below model that path: a wire-level `currentData` with
individually optional numeric fields, the remaining IEEE operations the
detectors perform on the current observation, JsFloat variants of the
other three detectors (the historical entries stay well-typed: the
claims are about missing fields on the current observation), and the
wire-level Evaluate and handler. -/

/-- The `currentData` object as it arrives from the duck-typed request
body: each numeric field individually possibly absent (`undefined`). -/
structure CurrentDataWire where
  price : Option ℝ
  volume : Option ℝ

/-- `undefined` entering float arithmetic converts to NaN. -/
def toJs : Option ℝ → JsFloat
  | none => .nan
  | some x => .fin x

/-- IEEE addition (NaN propagates; `∞ + (-∞)` is NaN). -/
noncomputable def jsAdd : JsFloat → JsFloat → JsFloat
  | .nan, _ => .nan
  | .fin _, .nan => .nan
  | .posInf, .nan => .nan
  | .negInf, .nan => .nan
  | .fin a, .fin b => .fin (a + b)
  | .posInf, .fin _ => .posInf
  | .negInf, .fin _ => .negInf
  | .fin _, .posInf => .posInf
  | .fin _, .negInf => .negInf
  | .posInf, .posInf => .posInf
  | .negInf, .negInf => .negInf
  | .posInf, .negInf => .nan
  | .negInf, .posInf => .nan

/-- IEEE multiplication (NaN propagates; `∞ · 0` is NaN). -/
noncomputable def jsMul : JsFloat → JsFloat → JsFloat
  | .nan, _ => .nan
  | .fin _, .nan => .nan
  | .posInf, .nan => .nan
  | .negInf, .nan => .nan
  | .fin a, .fin b => .fin (a * b)
  | .posInf, .fin b => if 0 < b then .posInf else if b < 0 then .negInf else .nan
  | .negInf, .fin b => if 0 < b then .negInf else if b < 0 then .posInf else .nan
  | .fin a, .posInf => if 0 < a then .posInf else if a < 0 then .negInf else .nan
  | .fin a, .negInf => if 0 < a then .negInf else if a < 0 then .posInf else .nan
  | .posInf, .posInf => .posInf
  | .negInf, .negInf => .posInf
  | .posInf, .negInf => .negInf
  | .negInf, .posInf => .negInf

/-- `Math.pow(x, 2)` on a JsFloat. -/
noncomputable def jsSq : JsFloat → JsFloat
  | .fin a => .fin (a ^ 2)
  | .posInf => .posInf
  | .negInf => .posInf
  | .nan => .nan

/-- `Math.sqrt` on a JsFloat (a negative argument gives NaN). -/
noncomputable def jsSqrt : JsFloat → JsFloat
  | .fin a => if a < 0 then .nan else .fin (Real.sqrt a)
  | .posInf => .posInf
  | .negInf => .nan
  | .nan => .nan

/-- The float `mean` on JsFloat values:
`reduce((a, b) => a + b, 0) / length`. -/
noncomputable def meanJsList (arr : List JsFloat) : JsFloat :=
  jsDiv (arr.foldl jsAdd (.fin 0)) (.fin arr.length)

/-- The order the numeric comparator `(a, b) => a - b` induces in
`Array.sort`: `x` may stay before `y` unless the comparator is strictly
positive; a NaN comparison result acts like 0 and leaves the pair's
order unchanged. -/
def jsCmpLE (x y : JsFloat) : Prop :=
  ¬ jsGtR (jsSub x y) 0

noncomputable instance : DecidableRel jsCmpLE :=
  fun _ _ => Classical.propDecidable _

/-- The k-distance computation of the LOF detector on JsFloat distances
(`sort` with the numeric comparator, `slice(0, k)`, `mean`). -/
noncomputable def kDistanceJs (distances : List JsFloat) (k : ℕ) : JsFloat :=
  meanJsList ((List.insertionSort jsCmpLE distances).take k)

/-- `detectVolumeSpikeAnomaly` on the duck-typed path: the current
volume itself may be absent, so it is a JsFloat (this generalizes
`detectVolumeSpikeAnomalyJs` above, which fixes a well-typed current
volume for the zero-mean claims).  Mirrors the source exactly. -/
noncomputable def detectVolumeSpikeAnomalyWire (currentVolume : JsFloat)
    (historicalVolumes : List ℝ) (ticker : String) (threshold : ℝ) (now : ℤ) :
    Option (AnomalyResult JsFloat) :=
  if historicalVolumes.length < 10 then none else
  let avgVolume := mean historicalVolumes
  let ratio := jsDiv currentVolume (.fin avgVolume)
  if jsGtR ratio threshold then
    some { type := .volume_spike
           severity :=
             if jsGtR ratio 10 then .critical
             else if jsGtR ratio 5 then .high
             else if jsGtR ratio 3 then .medium
             else .low
           score := ratio
           threshold := threshold
           timestamp := now
           ticker := ticker }
  else none

/-- `detectPriceDeviation` with a possibly absent (NaN) current price;
the history is well-typed.  Mirrors the source exactly. -/
noncomputable def detectPriceDeviationJs (currentPrice : JsFloat) (prices : List ℝ)
    (ticker : String) (maWindow : ℕ) (threshold : ℝ) (now : ℤ) :
    Option (AnomalyResult JsFloat) :=
  if prices.length < maWindow then none else
  let recentPrices := prices.drop (prices.length - maWindow)
  let movingAverage := mean recentPrices
  let deviation :=
    jsMul (jsDiv (jsSub currentPrice (.fin movingAverage)) (.fin movingAverage)) (.fin 100)
  let absDeviation := jsAbs deviation
  if jsGtR absDeviation threshold then
    some { type := .price_deviation
           severity :=
             if jsGtR absDeviation 15 then .critical
             else if jsGtR absDeviation 10 then .high
             else if jsGtR absDeviation 5 then .medium
             else .low
           score := absDeviation
           threshold := threshold
           timestamp := now
           ticker := ticker }
  else none

/-- `detectLOFAnomaly` with possibly absent (NaN) current price and
volume; the history is well-typed, so the per-historical-point
k-distances are the real `kDistanceOf` values while everything touching
the current observation follows IEEE semantics.  Mirrors the source. -/
noncomputable def detectLOFAnomalyJs (currentPrice currentVolume : JsFloat)
    (historicalData : List PricePoint) (ticker : String) (threshold : ℝ) (now : ℤ) :
    Option (AnomalyResult JsFloat) :=
  if historicalData.length < 20 then none else
  let prices := historicalData.map (·.price)
  let volumes := historicalData.map (·.volume)
  let priceMin := listMin prices
  let priceMax := listMax prices
  let volumeMin := listMin volumes
  let volumeMax := listMax volumes
  let normalizedCurrentPrice :=
    jsDiv (jsSub currentPrice (.fin priceMin)) (.fin (orOne (priceMax - priceMin)))
  let normalizedCurrentVolume :=
    jsDiv (jsSub currentVolume (.fin volumeMin)) (.fin (orOne (volumeMax - volumeMin)))
  let normalizedHistorical := historicalData.map (fun d =>
    ({ price := (d.price - priceMin) / orOne (priceMax - priceMin)
       volume := (d.volume - volumeMin) / orOne (volumeMax - volumeMin) } : PricePoint))
  let k := min 5 (historicalData.length - 1)
  let distances := normalizedHistorical.map (fun h =>
    jsSqrt (jsAdd (jsSq (jsSub normalizedCurrentPrice (.fin h.price)))
      (jsSq (jsSub normalizedCurrentVolume (.fin h.volume)))))
  let avgKDistance := kDistanceJs distances k
  let historicalKDistances := normalizedHistorical.enum.map (fun q =>
    kDistanceOf (normalizedHistorical.eraseIdx q.1) q.2 k)
  let avgHistoricalKDistance := mean historicalKDistances
  let lofScore := jsDiv avgKDistance (.fin (orOne avgHistoricalKDistance))
  if jsGtR lofScore threshold then
    some { type := .lof
           severity :=
             if jsGtR lofScore 3 then .critical
             else if jsGtR lofScore 2 then .high
             else if jsGtR lofScore 1.5 then .medium
             else .low
           score := lofScore
           threshold := threshold
           timestamp := now
           ticker := ticker }
  else none

/-- Severity-rank order on JsFloat-scored findings (same comparator as
`sevLE`). -/
def sevLEJs (a b : AnomalyResult JsFloat) : Prop :=
  severityOrder a.severity ≤ severityOrder b.severity

instance : DecidableRel sevLEJs := fun a b => by unfold sevLEJs; infer_instance

/-- The `typesList` accumulation over JsFloat-scored findings. -/
def typesAccumJs (acc : List AnomalyType) : List (AnomalyResult JsFloat) → List AnomalyType
  | [] => acc
  | a :: rest => typesAccumJs (if a.type ∈ acc then acc else acc ++ [a.type]) rest

/-- The response body of the duck-typed path. -/
structure EvalResultJs where
  ticker : String
  timestamp : ℤ
  anomalyCount : ℕ
  anomalies : List (AnomalyResult JsFloat)
  summary : Summary

/-- The non-null findings of the four detectors on the duck-typed path,
in invocation order (absent current fields become NaN). -/
noncomputable def evalCollectedJs (ticker : String) (currentData : CurrentDataWire)
    (historicalData : List PriceData) (now : ℤ) : List (AnomalyResult JsFloat) :=
  let historicalPrices := historicalData.map (·.price)
  let historicalVolumes := historicalData.map (·.volume)
  (detectZScoreAnomalyJs (toJs currentData.price) historicalPrices ticker 2.5 now).toList ++
    ((detectVolumeSpikeAnomalyWire (toJs currentData.volume) historicalVolumes
        ticker 3 now).toList ++
      ((detectPriceDeviationJs (toJs currentData.price) historicalPrices
          ticker 20 5 now).toList ++
        (detectLOFAnomalyJs (toJs currentData.price) (toJs currentData.volume)
          (historicalData.map (fun d => { price := d.price, volume := d.volume }))
          ticker 1.5 now).toList))

/-- The Evaluate core on a duck-typed current observation. -/
noncomputable def evaluateJs (ticker : String) (currentData : CurrentDataWire)
    (historicalData : List PriceData) (now : ℤ) : EvalResultJs :=
  let anomalies :=
    List.insertionSort sevLEJs (evalCollectedJs ticker currentData historicalData now)
  { ticker := ticker
    timestamp := now
    anomalyCount := anomalies.length
    anomalies := anomalies
    summary :=
      { hasAnomalies := decide (anomalies.length > 0)
        highestSeverity :=
          match anomalies with
          | [] => none
          | a :: _ => some a.severity
        types := typesAccumJs [] anomalies } }

/-- The POST handler on the duck-typed wire request: the top-level falsy
check is identical to `handlePost` and does not look inside
`currentData`, so an object with an absent `price` or `volume` field
passes validation and is evaluated. -/
noncomputable def handlePostWire (ticker : Option String)
    (currentData : Option CurrentDataWire) (historicalData : Option (List PriceData))
    (now : ℤ) : Except String EvalResultJs :=
  match ticker, currentData, historicalData with
  | some t, some c, some h =>
    if t = "" then Except.error "Missing required data"
    else Except.ok (evaluateJs t c h now)
  | _, _, _ => Except.error "Missing required data"

/-! ### Facts about the statistics primitives -/

theorem mean_const {l : List ℝ} {c : ℝ} (hne : l ≠ []) (hc : ∀ x ∈ l, x = c) :
    mean l = c := by
  have hlen : (l.length : ℝ) ≠ 0 := by
    have : l.length ≠ 0 := fun h => hne (List.length_eq_zero.mp h)
    exact_mod_cast this
  rw [mean, List.sum_eq_card_nsmul l c hc, nsmul_eq_mul]
  exact mul_div_cancel_left₀ c hlen

theorem standardDeviation_const {l : List ℝ} {c : ℝ} (hc : ∀ x ∈ l, x = c) :
    standardDeviation l = 0 := by
  show Real.sqrt (mean (l.map fun value => (value - mean l) ^ 2)) = 0
  rcases eq_or_ne l [] with rfl | hne
  · simp [mean]
  · have hzero : ∀ y ∈ l.map (fun value => (value - mean l) ^ 2), y = 0 := by
      intro y hy
      rcases List.mem_map.mp hy with ⟨x, hx, rfl⟩
      rw [mean_const hne hc, hc x hx]
      ring
    have hne' : l.map (fun value => (value - mean l) ^ 2) ≠ [] := by
      simpa using hne
    rw [mean_const hne' hzero, Real.sqrt_zero]

theorem foldl_min_const {c : ℝ} {xs : List ℝ} (h : ∀ x ∈ xs, x = c) :
    xs.foldl min c = c := by
  induction xs with
  | nil => rfl
  | cons x xs ih =>
    rw [List.foldl_cons, h x (List.mem_cons_self _ _), min_self]
    exact ih fun y hy => h y (List.mem_cons_of_mem _ hy)

theorem foldl_max_const {c : ℝ} {xs : List ℝ} (h : ∀ x ∈ xs, x = c) :
    xs.foldl max c = c := by
  induction xs with
  | nil => rfl
  | cons x xs ih =>
    rw [List.foldl_cons, h x (List.mem_cons_self _ _), max_self]
    exact ih fun y hy => h y (List.mem_cons_of_mem _ hy)

theorem listMin_const {l : List ℝ} {c : ℝ} (hne : l ≠ []) (hc : ∀ x ∈ l, x = c) :
    listMin l = c := by
  match l, hne with
  | x :: xs, _ =>
    rw [listMin, hc x (List.mem_cons_self _ _)]
    exact foldl_min_const fun y hy => hc y (List.mem_cons_of_mem _ hy)

theorem listMax_const {l : List ℝ} {c : ℝ} (hne : l ≠ []) (hc : ∀ x ∈ l, x = c) :
    listMax l = c := by
  match l, hne with
  | x :: xs, _ =>
    rw [listMax, hc x (List.mem_cons_self _ _)]
    exact foldl_max_const fun y hy => hc y (List.mem_cons_of_mem _ hy)

theorem orOne_zero : orOne 0 = 1 := by
  simp [orOne]

/-! ### Stability of the severity sort

`List.insertionSort` inserts each element in front of the first
already-placed element it compares `≤` to, so elements of equal severity
rank keep their input order.  The lemmas are stated for `sevLE` and an
arbitrary relation `s` holding pairwise on the input list. -/

theorem pairwise_tie_orderedInsert (s : AnomalyResult ℝ → AnomalyResult ℝ → Prop)
    (a : AnomalyResult ℝ) (m : List (AnomalyResult ℝ))
    (hQ : m.Pairwise fun x y => severityOrder x.severity = severityOrder y.severity → s x y)
    (hS : ∀ d ∈ m, s a d) :
    (List.orderedInsert sevLE a m).Pairwise
      fun x y => severityOrder x.severity = severityOrder y.severity → s x y := by
  induction m with
  | nil => simp
  | cons b m ih =>
    rcases List.pairwise_cons.mp hQ with ⟨hb, hm⟩
    rw [List.orderedInsert]
    split
    case isTrue h =>
      refine List.pairwise_cons.mpr ⟨?_, hQ⟩
      intro d hd _
      exact hS d hd
    case isFalse h =>
      refine List.pairwise_cons.mpr
        ⟨?_, ih hm fun d hd => hS d (List.mem_cons_of_mem _ hd)⟩
      intro d hd
      rcases (List.mem_orderedInsert sevLE).mp hd with rfl | hd'
      · intro hrank
        exact absurd (le_of_eq hrank.symm) h
      · exact hb d hd'

theorem pairwise_tie_insertionSort (s : AnomalyResult ℝ → AnomalyResult ℝ → Prop)
    (l : List (AnomalyResult ℝ)) (hs : l.Pairwise s) :
    (List.insertionSort sevLE l).Pairwise
      fun x y => severityOrder x.severity = severityOrder y.severity → s x y := by
  induction l with
  | nil => simp
  | cons a l ih =>
    rcases List.pairwise_cons.mp hs with ⟨ha, hl⟩
    rw [List.insertionSort]
    exact pairwise_tie_orderedInsert s a _ (ih hl)
      fun d hd => ha d ((List.perm_insertionSort sevLE l).mem_iff.mp hd)

instance : IsTotal (AnomalyResult ℝ) sevLE :=
  ⟨fun a b => Nat.le_total (severityOrder a.severity) (severityOrder b.severity)⟩

instance : IsTrans (AnomalyResult ℝ) sevLE :=
  ⟨fun _ _ _ hab hbc => Nat.le_trans hab hbc⟩

/-! ### Shape of each detector's finding -/

theorem detectZScoreAnomaly_eq_some {cp th : ℝ} {h : List ℝ} {t : String} {now : ℤ}
    {f : AnomalyResult ℝ} (hf : detectZScoreAnomaly cp h t th now = some f) :
    f.type = .zscore ∧ f.threshold = th ∧ f.threshold < f.score ∧ 0 ≤ f.score ∧
      f.timestamp = now ∧ f.ticker = t := by
  simp only [detectZScoreAnomaly] at hf
  split at hf
  · exact absurd hf (by simp)
  split at hf
  · exact absurd hf (by simp)
  split at hf
  case isTrue hgt =>
    injection hf with hf
    subst hf
    exact ⟨rfl, rfl, hgt, abs_nonneg _, rfl, rfl⟩
  case isFalse => exact absurd hf (by simp)

theorem detectVolumeSpikeAnomaly_eq_some {cv th : ℝ} {h : List ℝ} {t : String} {now : ℤ}
    {f : AnomalyResult ℝ} (hf : detectVolumeSpikeAnomaly cv h t th now = some f) :
    f.type = .volume_spike ∧ f.threshold = th ∧ f.threshold < f.score ∧
      f.timestamp = now ∧ f.ticker = t := by
  simp only [detectVolumeSpikeAnomaly] at hf
  split at hf
  · exact absurd hf (by simp)
  split at hf
  case isTrue hgt =>
    injection hf with hf
    subst hf
    exact ⟨rfl, rfl, hgt, rfl, rfl⟩
  case isFalse => exact absurd hf (by simp)

theorem detectPriceDeviation_eq_some {cp th : ℝ} {prices : List ℝ} {t : String} {w : ℕ}
    {now : ℤ} {f : AnomalyResult ℝ} (hf : detectPriceDeviation cp prices t w th now = some f) :
    f.type = .price_deviation ∧ f.threshold = th ∧ f.threshold < f.score ∧ 0 ≤ f.score ∧
      f.timestamp = now ∧ f.ticker = t := by
  simp only [detectPriceDeviation] at hf
  split at hf
  · exact absurd hf (by simp)
  split at hf
  case isTrue hgt =>
    injection hf with hf
    subst hf
    exact ⟨rfl, rfl, hgt, abs_nonneg _, rfl, rfl⟩
  case isFalse => exact absurd hf (by simp)

theorem detectLOFAnomaly_eq_some {cp cv th : ℝ} {hist : List PricePoint} {t : String}
    {now : ℤ} {f : AnomalyResult ℝ} (hf : detectLOFAnomaly cp cv hist t th now = some f) :
    f.type = .lof ∧ f.threshold = th ∧ f.threshold < f.score ∧
      f.timestamp = now ∧ f.ticker = t := by
  simp only [detectLOFAnomaly] at hf
  split at hf
  · exact absurd hf (by simp)
  split at hf
  case isTrue hgt =>
    injection hf with hf
    subst hf
    exact ⟨rfl, rfl, hgt, rfl, rfl⟩
  case isFalse => exact absurd hf (by simp)

/-! ### The observable finding data (kind, score, severity) -/

/-- The content of a finding that the determinism claim compares across
calls: kind, score and severity (the timestamp is evaluation time). -/
def findingData (f : AnomalyResult ℝ) : AnomalyType × ℝ × Severity :=
  (f.type, f.score, f.severity)

/-- The severity-rank order on projected finding data. -/
def sevDataLE (a b : AnomalyType × ℝ × Severity) : Prop :=
  severityOrder a.2.2 ≤ severityOrder b.2.2

instance : DecidableRel sevDataLE := fun a b => by unfold sevDataLE; infer_instance

theorem toList_map {α β : Type} (f : α → β) (o : Option α) :
    o.toList.map f = (o.map f).toList := by
  cases o <;> rfl

theorem detectZScoreAnomaly_data (cp : ℝ) (h : List ℝ) (t : String) (th : ℝ) (now now' : ℤ) :
    (detectZScoreAnomaly cp h t th now).map findingData =
      (detectZScoreAnomaly cp h t th now').map findingData := by
  simp only [detectZScoreAnomaly]
  split_ifs <;> rfl

theorem detectVolumeSpikeAnomaly_data (cv : ℝ) (h : List ℝ) (t : String) (th : ℝ)
    (now now' : ℤ) :
    (detectVolumeSpikeAnomaly cv h t th now).map findingData =
      (detectVolumeSpikeAnomaly cv h t th now').map findingData := by
  simp only [detectVolumeSpikeAnomaly]
  split_ifs <;> rfl

theorem detectPriceDeviation_data (cp : ℝ) (prices : List ℝ) (t : String) (w : ℕ) (th : ℝ)
    (now now' : ℤ) :
    (detectPriceDeviation cp prices t w th now).map findingData =
      (detectPriceDeviation cp prices t w th now').map findingData := by
  simp only [detectPriceDeviation]
  split_ifs <;> rfl

theorem detectLOFAnomaly_data (cp cv : ℝ) (hist : List PricePoint) (t : String) (th : ℝ)
    (now now' : ℤ) :
    (detectLOFAnomaly cp cv hist t th now).map findingData =
      (detectLOFAnomaly cp cv hist t th now').map findingData := by
  simp only [detectLOFAnomaly]
  split_ifs <;> rfl

theorem evalCollected_data (t : String) (c : CurrentData) (h : List PriceData)
    (now now' : ℤ) :
    (evalCollected t c h now).map findingData = (evalCollected t c h now').map findingData := by
  simp only [evalCollected, List.map_append, toList_map]
  rw [detectZScoreAnomaly_data _ _ _ _ now now', detectVolumeSpikeAnomaly_data _ _ _ _ now now',
    detectPriceDeviation_data _ _ _ _ _ now now', detectLOFAnomaly_data _ _ _ _ _ now now']

/-! ### Aggregator facts -/

theorem evaluate_anomalies (ticker : String) (cur : CurrentData) (hist : List PriceData)
    (now : ℤ) :
    (evaluate ticker cur hist now).anomalies =
      List.insertionSort sevLE (evalCollected ticker cur hist now) := rfl

theorem typesAccum_eq (l : List (AnomalyResult ℝ)) :
    ∀ acc : List AnomalyType,
      typesAccum acc l =
        acc ++ firstOccurrenceDedup ((l.map (·.type)).filter fun x => x ∉ acc) := by
  induction l with
  | nil => intro acc; simp [typesAccum, firstOccurrenceDedup]
  | cons a l ih =>
    intro acc
    rw [typesAccum]
    by_cases hmem : a.type ∈ acc
    · rw [if_pos hmem, ih acc, List.map_cons, List.filter_cons]
      simp [hmem]
    · rw [if_neg hmem, ih (acc ++ [a.type]), List.map_cons, List.filter_cons]
      have hkeep : (decide (a.type ∉ acc)) = true := by simpa using hmem
      rw [hkeep, if_pos rfl, firstOccurrenceDedup, List.filter_filter]
      have hfc :
          ((l.map (·.type)).filter fun x => x ∉ acc ++ [a.type]) =
            (l.map (·.type)).filter fun x => decide (x ≠ a.type) && decide (x ∉ acc) := by
        refine List.filter_congr fun x _ => ?_
        simp [List.mem_append, not_or, Bool.and_comm]
      rw [hfc, List.append_assoc, List.singleton_append]

theorem pairwise_toList {α : Type} (R : α → α → Prop) (o : Option α) :
    o.toList.Pairwise R := by
  cases o
  · exact List.Pairwise.nil
  · exact List.pairwise_singleton R _

theorem evalCollected_pairwise (ticker : String) (cur : CurrentData) (hist : List PriceData)
    (now : ℤ) :
    (evalCollected ticker cur hist now).Pairwise fun f g =>
      invocationIndex f.type < invocationIndex g.type := by
  have hz : ∀ f ∈ (detectZScoreAnomaly cur.price (hist.map (·.price)) ticker 2.5 now).toList,
      f.type = .zscore := by
    intro f hf
    rw [Option.mem_toList, Option.mem_def] at hf
    exact (detectZScoreAnomaly_eq_some hf).1
  have hv : ∀ f ∈ (detectVolumeSpikeAnomaly cur.volume (hist.map (·.volume))
      ticker 3 now).toList, f.type = .volume_spike := by
    intro f hf
    rw [Option.mem_toList, Option.mem_def] at hf
    exact (detectVolumeSpikeAnomaly_eq_some hf).1
  have hp : ∀ f ∈ (detectPriceDeviation cur.price (hist.map (·.price))
      ticker 20 5 now).toList, f.type = .price_deviation := by
    intro f hf
    rw [Option.mem_toList, Option.mem_def] at hf
    exact (detectPriceDeviation_eq_some hf).1
  have hl : ∀ f ∈ (detectLOFAnomaly cur.price cur.volume
      (hist.map fun d => { price := d.price, volume := d.volume })
      ticker 1.5 now).toList, f.type = .lof := by
    intro f hf
    rw [Option.mem_toList, Option.mem_def] at hf
    exact (detectLOFAnomaly_eq_some hf).1
  simp only [evalCollected]
  rw [List.pairwise_append]
  refine ⟨pairwise_toList _ _, ?_, ?_⟩
  · rw [List.pairwise_append]
    refine ⟨pairwise_toList _ _, ?_, ?_⟩
    · rw [List.pairwise_append]
      refine ⟨pairwise_toList _ _, pairwise_toList _ _, ?_⟩
      intro a ha b hb
      rw [hp a ha, hl b hb]
      exact Nat.lt_succ_self 2
    · intro a ha b hb
      rw [hv a ha]
      rcases List.mem_append.mp hb with hb' | hb'
      · rw [hp b hb']
        exact Nat.lt_succ_self 1
      · rw [hl b hb']
        exact Nat.lt_of_sub_eq_succ rfl
  · intro a ha b hb
    rw [hz a ha]
    rcases List.mem_append.mp hb with hb' | hb'
    · rw [hv b hb']
      exact Nat.lt_succ_self 0
    rcases List.mem_append.mp hb' with hb'' | hb''
    · rw [hp b hb'']
      exact Nat.succ_le_succ (Nat.zero_le 1)
    · rw [hl b hb'']
      exact Nat.succ_le_succ (Nat.zero_le 2)

/-- C1: for every Evaluate call the returned findings sequence is sorted
ascending by severity rank {critical:0, high:1, medium:2, low:3}: for all
`i < j`, `severityOrder findings[i] ≤ severityOrder findings[j]`; and two
findings of equal severity always appear in detector-invocation order
(zscore, volume_spike, price_deviation, lof), by stability of the sort. -/
theorem evaluate_findings_sorted_and_stable (ticker : String) (cur : CurrentData)
    (hist : List PriceData) (now : ℤ) :
    ((evaluate ticker cur hist now).anomalies).Pairwise fun f g =>
      severityOrder f.severity ≤ severityOrder g.severity ∧
        (f.severity = g.severity → invocationIndex f.type < invocationIndex g.type) := by
  rw [evaluate_anomalies]
  have h1 : (List.insertionSort sevLE (evalCollected ticker cur hist now)).Pairwise sevLE :=
    List.sorted_insertionSort sevLE _
  have h2 := pairwise_tie_insertionSort _ _ (evalCollected_pairwise ticker cur hist now)
  exact (h1.and h2).imp fun hb => ⟨hb.1, fun hsev => hb.2 (congrArg severityOrder hsev)⟩

/-- C2: the summary of every Evaluate result satisfies: `hasAnomalies` is
true exactly when the findings list is nonempty; `highestSeverity` is the
severity of the first sorted finding, `none` when there are no findings;
and `types` is the sequence of kinds of the sorted findings with
duplicates removed in first-occurrence order. -/
theorem evaluate_summary_correct (ticker : String) (cur : CurrentData)
    (hist : List PriceData) (now : ℤ) :
    ((evaluate ticker cur hist now).summary.hasAnomalies = true ↔
        (evaluate ticker cur hist now).anomalies ≠ []) ∧
      (evaluate ticker cur hist now).summary.highestSeverity =
        ((evaluate ticker cur hist now).anomalies).head?.map (·.severity) ∧
      (evaluate ticker cur hist now).summary.types =
        firstOccurrenceDedup (((evaluate ticker cur hist now).anomalies).map (·.type)) := by
  refine ⟨?_, ?_, ?_⟩
  · show decide ((evaluate ticker cur hist now).anomalies.length > 0) = true ↔ _
    rw [decide_eq_true_iff]
    exact ⟨fun h => List.ne_nil_of_length_pos h, fun h => List.length_pos.mpr h⟩
  · show (match (evaluate ticker cur hist now).anomalies with
      | [] => none
      | a :: _ => some a.severity) = _
    cases (evaluate ticker cur hist now).anomalies <;> rfl
  · show typesAccum [] ((evaluate ticker cur hist now).anomalies) = _
    rw [typesAccum_eq]
    have : (((evaluate ticker cur hist now).anomalies.map (·.type)).filter
        fun x => x ∉ ([] : List AnomalyType)) =
        ((evaluate ticker cur hist now).anomalies.map (·.type)) := by
      rw [List.filter_eq_self]
      intro x _
      simp
    rw [this, List.nil_append]

/-- C3: Evaluate is deterministic.  The embedding is a pure function of
`(instrument, current, history)` and of the evaluation time `now`
(`Date.now()`), the only environment input; the kinds, scores and
severities of the findings do not depend even on `now`, so two calls on
the same inputs return identical findings up to the evaluation
timestamp, with no hidden state or randomness in any detector. -/
theorem evaluate_deterministic (ticker : String) (cur : CurrentData) (hist : List PriceData)
    (now now' : ℤ) :
    ((evaluate ticker cur hist now).anomalies).map findingData =
      ((evaluate ticker cur hist now').anomalies).map findingData := by
  rw [evaluate_anomalies, evaluate_anomalies,
    List.map_insertionSort sevLE sevDataLE findingData _ fun a _ b _ => Iff.rfl,
    List.map_insertionSort sevLE sevDataLE findingData _ fun a _ b _ => Iff.rfl,
    evalCollected_data ticker cur hist now now']

/-! ### Guard lemmas (shared by several claims below) -/

theorem detectZScoreAnomaly_short {cp th : ℝ} {h : List ℝ} {t : String} {now : ℤ}
    (hlen : h.length < 10) : detectZScoreAnomaly cp h t th now = none := by
  simp only [detectZScoreAnomaly]
  rw [if_pos hlen]

theorem detectVolumeSpikeAnomaly_short {cv th : ℝ} {h : List ℝ} {t : String} {now : ℤ}
    (hlen : h.length < 10) : detectVolumeSpikeAnomaly cv h t th now = none := by
  simp only [detectVolumeSpikeAnomaly]
  rw [if_pos hlen]

theorem detectPriceDeviation_short {cp th : ℝ} {prices : List ℝ} {t : String} {w : ℕ}
    {now : ℤ} (hlen : prices.length < w) : detectPriceDeviation cp prices t w th now = none := by
  simp only [detectPriceDeviation]
  rw [if_pos hlen]

theorem detectLOFAnomaly_short {cp cv th : ℝ} {hist : List PricePoint} {t : String}
    {now : ℤ} (hlen : hist.length < 20) : detectLOFAnomaly cp cv hist t th now = none := by
  simp only [detectLOFAnomaly]
  rw [if_pos hlen]

/-- A constant price history has zero standard deviation, so the z-score
detector abstains on it (both with and without enough data). -/
theorem detectZScoreAnomaly_const_none {cp th c : ℝ} {h : List ℝ} {t : String} {now : ℤ}
    (hc : ∀ x ∈ h, x = c) : detectZScoreAnomaly cp h t th now = none := by
  by_cases hlen : h.length < 10
  · exact detectZScoreAnomaly_short hlen
  · simp only [detectZScoreAnomaly]
    rw [if_neg hlen, if_pos (standardDeviation_const hc)]

theorem evaluate_nil_anomalies (t : String) (cur : CurrentData) (now : ℤ) :
    (evaluate t cur [] now).anomalies = [] := by
  rw [evaluate_anomalies]
  simp only [evalCollected, List.map_nil]
  rw [detectZScoreAnomaly_short (by simp), detectVolumeSpikeAnomaly_short (by simp),
    detectPriceDeviation_short (by simp), detectLOFAnomaly_short (by simp)]
  rfl

/-! ### Replicate facts for the constant-history LOF scenario -/

theorem orderedInsert_replicate_self (c : ℝ) (n : ℕ) :
    List.orderedInsert (· ≤ ·) c (List.replicate n c) = List.replicate (n + 1) c := by
  cases n with
  | zero => rfl
  | succ m =>
    rw [List.replicate_succ, List.orderedInsert, if_pos (le_refl c)]
    rfl

theorem insertionSort_replicate (c : ℝ) (n : ℕ) :
    List.insertionSort (· ≤ ·) (List.replicate n c) = List.replicate n c := by
  induction n with
  | zero => rfl
  | succ m ih =>
    rw [List.replicate_succ, List.insertionSort, ih, orderedInsert_replicate_self,
      List.replicate_succ]

theorem mean_replicate {n : ℕ} (c : ℝ) (hn : n ≠ 0) :
    mean (List.replicate n c) = c := by
  refine mean_const ?_ fun x hx => List.eq_of_mem_replicate hx
  intro hnil
  exact hn (by simpa using congrArg List.length hnil)

/-- C4: each detector abstains, without raising, below its minimum
history length — z-score and volume-spike below 10 entries,
price-deviation (ma_window 20) and LOF below 20 — and a completely empty
history yields an EvaluationResult with zero findings through the
handler (an ok response, not an error). -/
theorem detectors_minimum_data_abstention :
    (∀ (cp th : ℝ) (h : List ℝ) (t : String) (now : ℤ), h.length < 10 →
        detectZScoreAnomaly cp h t th now = none) ∧
      (∀ (cv th : ℝ) (h : List ℝ) (t : String) (now : ℤ), h.length < 10 →
        detectVolumeSpikeAnomaly cv h t th now = none) ∧
      (∀ (cp th : ℝ) (prices : List ℝ) (t : String) (now : ℤ), prices.length < 20 →
        detectPriceDeviation cp prices t 20 th now = none) ∧
      (∀ (cp cv th : ℝ) (hist : List PricePoint) (t : String) (now : ℤ), hist.length < 20 →
        detectLOFAnomaly cp cv hist t th now = none) ∧
      (∀ (t : String) (cur : CurrentData) (now : ℤ),
        (evaluate t cur [] now).anomalies = []) ∧
      (∀ (cur : CurrentData) (now : ℤ),
        handlePost (some "BTC") (some cur) (some []) now =
          Except.ok (evaluate "BTC" cur [] now)) := by
  refine ⟨?_, ?_, ?_, ?_, ?_, ?_⟩
  · intro cp th h t now hlen
    exact detectZScoreAnomaly_short hlen
  · intro cv th h t now hlen
    exact detectVolumeSpikeAnomaly_short hlen
  · intro cp th prices t now hlen
    exact detectPriceDeviation_short hlen
  · intro cp cv th hist t now hlen
    exact detectLOFAnomaly_short hlen
  · intro t cur now
    exact evaluate_nil_anomalies t cur now
  · intro cur now
    simp only [handlePost]
    rw [if_neg (by decide)]

theorem detectors_minimum_data_abstention_witness :
    detectZScoreAnomaly 5 [1, 2, 3] "BTC" 2.5 0 = none ∧
      detectVolumeSpikeAnomaly 5 [1, 2, 3] "BTC" 3 0 = none ∧
      detectPriceDeviation 5 (List.replicate 19 1) "BTC" 20 5 0 = none ∧
      detectLOFAnomaly 5 7 (List.replicate 19 ⟨1, 1⟩) "BTC" 1.5 0 = none ∧
      (evaluate "ETH" ⟨5, 7⟩ [] 3).anomalies = [] ∧
      handlePost (some "BTC") (some ⟨5, 7⟩) (some []) 3 = Except.ok (evaluate "BTC" ⟨5, 7⟩ [] 3) :=
  ⟨detectors_minimum_data_abstention.1 5 2.5 [1, 2, 3] "BTC" 0 (by decide),
    detectors_minimum_data_abstention.2.1 5 3 [1, 2, 3] "BTC" 0 (by decide),
    detectors_minimum_data_abstention.2.2.1 5 5 (List.replicate 19 1) "BTC" 0 (by decide),
    detectors_minimum_data_abstention.2.2.2.1 5 7 1.5 (List.replicate 19 ⟨1, 1⟩) "BTC" 0
      (by decide),
    detectors_minimum_data_abstention.2.2.2.2.1 "ETH" ⟨5, 7⟩ 3,
    detectors_minimum_data_abstention.2.2.2.2.2 ⟨5, 7⟩ 3⟩

/-- C8: on a constant historical price series of length at least 10 the
z-score detector returns no finding for every current price, because the
population standard deviation is 0 and the detector returns `none` when
`std = 0`. -/
theorem zscore_constant_history_abstains (cp c th : ℝ) (h : List ℝ) (t : String) (now : ℤ)
    (_hlen : 10 ≤ h.length) (hc : ∀ x ∈ h, x = c) :
    detectZScoreAnomaly cp h t th now = none :=
  detectZScoreAnomaly_const_none hc

theorem zscore_constant_history_abstains_witness :
    detectZScoreAnomaly 1000 (List.replicate 10 5) "BTC" 2.5 0 = none :=
  zscore_constant_history_abstains 1000 5 2.5 (List.replicate 10 5) "BTC" 0 (by decide)
    fun x hx => List.eq_of_mem_replicate hx

/-- C10: every emitted finding satisfies `threshold < score` for the
threshold recorded in that same finding, for each detector at any
configured threshold; and every finding of an Evaluate call (default
thresholds 2.5, 3, 5, 1.5) additionally has strictly positive score. -/
theorem finding_score_exceeds_threshold :
    (∀ (cp th : ℝ) (h : List ℝ) (t : String) (now : ℤ) (f : AnomalyResult ℝ),
        detectZScoreAnomaly cp h t th now = some f → f.threshold < f.score) ∧
      (∀ (cv th : ℝ) (h : List ℝ) (t : String) (now : ℤ) (f : AnomalyResult ℝ),
        detectVolumeSpikeAnomaly cv h t th now = some f → f.threshold < f.score) ∧
      (∀ (cp th : ℝ) (prices : List ℝ) (t : String) (w : ℕ) (now : ℤ) (f : AnomalyResult ℝ),
        detectPriceDeviation cp prices t w th now = some f → f.threshold < f.score) ∧
      (∀ (cp cv th : ℝ) (hist : List PricePoint) (t : String) (now : ℤ) (f : AnomalyResult ℝ),
        detectLOFAnomaly cp cv hist t th now = some f → f.threshold < f.score) ∧
      (∀ (t : String) (cur : CurrentData) (hist : List PriceData) (now : ℤ)
          (f : AnomalyResult ℝ), f ∈ (evaluate t cur hist now).anomalies →
        f.threshold < f.score ∧ 0 < f.score) := by
  refine ⟨?_, ?_, ?_, ?_, ?_⟩
  · intro cp th h t now f hf
    exact (detectZScoreAnomaly_eq_some hf).2.2.1
  · intro cv th h t now f hf
    exact (detectVolumeSpikeAnomaly_eq_some hf).2.2.1
  · intro cp th prices t w now f hf
    exact (detectPriceDeviation_eq_some hf).2.2.1
  · intro cp cv th hist t now f hf
    exact (detectLOFAnomaly_eq_some hf).2.2.1
  · intro t cur hist now f hf
    rw [evaluate_anomalies] at hf
    have hf' : f ∈ evalCollected t cur hist now :=
      (List.perm_insertionSort sevLE _).mem_iff.mp hf
    simp only [evalCollected] at hf'
    have hthr : f.threshold < f.score ∧ (0:ℝ) < f.threshold := by
      rcases List.mem_append.mp hf' with hz | hrest
      · rw [Option.mem_toList, Option.mem_def] at hz
        rcases detectZScoreAnomaly_eq_some hz with ⟨_, hth, hlt, _⟩
        exact ⟨hlt, by rw [hth]; norm_num⟩
      rcases List.mem_append.mp hrest with hv | hrest'
      · rw [Option.mem_toList, Option.mem_def] at hv
        rcases detectVolumeSpikeAnomaly_eq_some hv with ⟨_, hth, hlt, _⟩
        exact ⟨hlt, by rw [hth]; norm_num⟩
      rcases List.mem_append.mp hrest' with hp | hl
      · rw [Option.mem_toList, Option.mem_def] at hp
        rcases detectPriceDeviation_eq_some hp with ⟨_, hth, hlt, _⟩
        exact ⟨hlt, by rw [hth]; norm_num⟩
      · rw [Option.mem_toList, Option.mem_def] at hl
        rcases detectLOFAnomaly_eq_some hl with ⟨_, hth, hlt, _⟩
        exact ⟨hlt, by rw [hth]; norm_num⟩
    exact ⟨hthr.1, lt_trans hthr.2 hthr.1⟩

/-- A concrete volume-spike finding used to witness C10: current volume
1000 against ten historical volumes of 100 gives ratio 10, severity
high. -/
noncomputable def sampleVolumeFinding : AnomalyResult ℝ :=
  ⟨.volume_spike, .high, 10, 3, 0, "X"⟩

theorem volspike_concrete :
    detectVolumeSpikeAnomaly 1000 (List.replicate 10 (100:ℝ)) "X" 3 0 =
      some sampleVolumeFinding := by
  simp only [detectVolumeSpikeAnomaly, @mean_replicate 10 (100:ℝ) (by decide),
    List.length_replicate, sampleVolumeFinding]
  norm_num

theorem evaluate_concrete_anomalies :
    (evaluate "X" ⟨5, 1000⟩ (List.replicate 10 ⟨0, 5, 100⟩) 0).anomalies =
      [sampleVolumeFinding] := by
  rw [evaluate_anomalies]
  simp only [evalCollected, List.map_replicate]
  rw [detectZScoreAnomaly_const_none (c := 5) fun x hx => List.eq_of_mem_replicate hx,
    volspike_concrete,
    detectPriceDeviation_short (by decide),
    detectLOFAnomaly_short (by decide)]
  rfl

theorem finding_score_exceeds_threshold_witness :
    sampleVolumeFinding ∈
        (evaluate "X" ⟨5, 1000⟩ (List.replicate 10 ⟨0, 5, 100⟩) 0).anomalies ∧
      sampleVolumeFinding.threshold < sampleVolumeFinding.score ∧
      0 < sampleVolumeFinding.score :=
  have hmem : sampleVolumeFinding ∈
      (evaluate "X" ⟨5, 1000⟩ (List.replicate 10 ⟨0, 5, 100⟩) 0).anomalies := by
    rw [evaluate_concrete_anomalies]
    exact List.mem_singleton.mpr rfl
  ⟨hmem, finding_score_exceeds_threshold.2.2.2.2 "X" ⟨5, 1000⟩
    (List.replicate 10 ⟨0, 5, 100⟩) 0 sampleVolumeFinding hmem⟩

/-! ### C5: the source `mean` does not fail on an empty input -/

/-- C5 counterexample: on the empty list the source `mean` computes
`0 / 0`, the non-error float value NaN — it does not fail with an
`EmptyInputError` (there is no throw in its body at all). -/
theorem mean_empty_is_nan_not_error : meanJs [] = JsFloat.nan := by
  simp [meanJs, jsDiv]

/-- C5 (amended): `mean` of a non-empty sequence is the arithmetic mean
(`length · mean = sum`, a finite IEEE value); on the empty sequence it
returns the non-error value NaN (`0 / 0`) instead of failing — inside the
engine every call site guards the length first, so the empty case is
never reached by the detectors. -/
theorem mean_nonempty_arithmetic {l : List ℝ} (hne : l ≠ []) :
    meanJs l = JsFloat.fin (mean l) ∧ (l.length : ℝ) * mean l = l.sum := by
  have hlen : (l.length : ℝ) ≠ 0 := by
    have : l.length ≠ 0 := fun h => hne (List.length_eq_zero.mp h)
    exact_mod_cast this
  constructor
  · simp [meanJs, jsDiv, hlen, mean]
  · rw [mean, mul_div_cancel₀ _ hlen]

theorem mean_nonempty_arithmetic_witness :
    meanJs [2, 4] = JsFloat.fin (mean [2, 4]) ∧
      ((([2, 4] : List ℝ).length : ℝ)) * mean [2, 4] = ([2, 4] : List ℝ).sum :=
  mean_nonempty_arithmetic (by simp)

/-! ### C6: missing required fields are not reported per-field -/

/-- C6 counterexample: a missing `ticker` and a missing `currentData`
produce the identical generic `'Missing required data'` error — the
structured error does not identify which required field is missing. -/
theorem handlePost_error_not_field_specific :
    handlePost none (some ⟨1, 2⟩) (some []) 0 = Except.error "Missing required data" ∧
      handlePost (some "BTC") none (some []) 0 = Except.error "Missing required data" :=
  ⟨rfl, rfl⟩

theorem detectZScoreAnomalyJs_nan (h : List ℝ) (t : String) (th : ℝ) (now : ℤ) :
    detectZScoreAnomalyJs JsFloat.nan h t th now = none := by
  simp only [detectZScoreAnomalyJs, jsSub, jsDiv, jsAbs, jsGtR]
  split
  · rfl
  split
  · rfl
  · simp

theorem detectPriceDeviationJs_nan (h : List ℝ) (t : String) (w : ℕ) (th : ℝ) (now : ℤ) :
    detectPriceDeviationJs JsFloat.nan h t w th now = none := by
  simp only [detectPriceDeviationJs, jsSub, jsDiv, jsMul, jsAbs, jsGtR]
  split
  · rfl
  · simp

theorem jsAdd_nan_right (x : JsFloat) : jsAdd x JsFloat.nan = JsFloat.nan := by
  cases x <;> rfl

theorem foldl_jsAdd_replicate_nan (m : ℕ) (hm : m ≠ 0) (x : JsFloat) :
    (List.replicate m JsFloat.nan).foldl jsAdd x = JsFloat.nan := by
  induction m generalizing x with
  | zero => exact absurd rfl hm
  | succ k ih =>
    rw [List.replicate_succ, List.foldl_cons, jsAdd_nan_right]
    rcases Nat.eq_zero_or_pos k with hk | hk
    · subst hk
      rfl
    · exact ih (by omega) JsFloat.nan

theorem orderedInsert_replicate_nan (n : ℕ) :
    List.orderedInsert jsCmpLE JsFloat.nan (List.replicate n JsFloat.nan) =
      List.replicate (n + 1) JsFloat.nan := by
  cases n with
  | zero => rfl
  | succ m =>
    have hy : jsCmpLE JsFloat.nan JsFloat.nan := by
      simp [jsCmpLE, jsSub, jsGtR]
    rw [List.replicate_succ, List.orderedInsert, if_pos hy, ← List.replicate_succ,
      ← List.replicate_succ]

theorem insertionSort_replicate_nan (n : ℕ) :
    List.insertionSort jsCmpLE (List.replicate n JsFloat.nan) =
      List.replicate n JsFloat.nan := by
  induction n with
  | zero => rfl
  | succ m ih =>
    rw [List.replicate_succ, List.insertionSort, ih, orderedInsert_replicate_nan,
      List.replicate_succ]

theorem kDistanceJs_replicate_nan (n k : ℕ) (hk : min k n ≠ 0) :
    kDistanceJs (List.replicate n JsFloat.nan) k = JsFloat.nan := by
  rw [kDistanceJs, insertionSort_replicate_nan, List.take_replicate, meanJsList,
    foldl_jsAdd_replicate_nan _ hk]
  rfl

theorem jsSub_nan_left (y : JsFloat) : jsSub JsFloat.nan y = JsFloat.nan := rfl

theorem jsDiv_nan_left (y : JsFloat) : jsDiv JsFloat.nan y = JsFloat.nan := rfl

theorem jsSq_nan : jsSq JsFloat.nan = JsFloat.nan := rfl

theorem jsAdd_nan_left (y : JsFloat) : jsAdd JsFloat.nan y = JsFloat.nan := rfl

theorem jsSqrt_nan : jsSqrt JsFloat.nan = JsFloat.nan := rfl

theorem jsGtR_nan (x : ℝ) : jsGtR JsFloat.nan x = False := rfl

theorem detectLOFAnomalyJs_nan_price (cv : JsFloat) (hist : List PricePoint) (t : String)
    (th : ℝ) (now : ℤ) : detectLOFAnomalyJs JsFloat.nan cv hist t th now = none := by
  by_cases hlen : hist.length < 20
  · simp only [detectLOFAnomalyJs]
    rw [if_pos hlen]
  · simp only [detectLOFAnomalyJs, jsSub_nan_left, jsDiv_nan_left, jsSq_nan, jsAdd_nan_left,
      jsSqrt_nan]
    rw [if_neg hlen]
    simp only [List.map_const', List.length_map]
    rw [kDistanceJs_replicate_nan hist.length (min 5 (hist.length - 1)) (by omega),
      jsDiv_nan_left]
    simp [jsGtR_nan]

theorem evaluateJs_anomalies (t : String) (c : CurrentDataWire) (h : List PriceData)
    (now : ℤ) :
    (evaluateJs t c h now).anomalies =
      List.insertionSort sevLEJs (evalCollectedJs t c h now) := rfl

theorem toJs_none : toJs none = JsFloat.nan := rfl

theorem insertionSort_toList_js (o : Option (AnomalyResult JsFloat)) :
    List.insertionSort sevLEJs o.toList = o.toList := by
  cases o <;> rfl

theorem evaluateJs_missing_price (t : String) (v : Option ℝ) (h : List PriceData)
    (now : ℤ) :
    (evaluateJs t ⟨none, v⟩ h now).anomalies =
      (detectVolumeSpikeAnomalyWire (toJs v) (h.map (·.volume)) t 3 now).toList := by
  rw [evaluateJs_anomalies]
  simp only [evalCollectedJs, toJs_none, detectZScoreAnomalyJs_nan, detectPriceDeviationJs_nan,
    detectLOFAnomalyJs_nan_price, Option.toList_none, List.nil_append, List.append_nil]
  exact insertionSort_toList_js _

/-- C6 (amended): only top-level absence of `ticker`, `currentData` or
`historicalData` is rejected, always with the same generic
`'Missing required data'` message that does not name the field; a current
observation with an absent `price` field is not rejected at all — the
handler accepts and evaluates it, the absent value enters arithmetic as
`undefined`, i.e. NaN, every threshold comparison on NaN is false, each
affected detector (z-score, price-deviation, LOF) silently contributes
no finding, and the findings of such a call reduce to the volume
detector's alone. -/
theorem handlePost_missing_field_behaviour :
    (∀ (c : Option CurrentDataWire) (h : Option (List PriceData)) (now : ℤ),
        handlePostWire none c h now = Except.error "Missing required data") ∧
      (∀ (t : Option String) (h : Option (List PriceData)) (now : ℤ),
        handlePostWire t none h now = Except.error "Missing required data") ∧
      (∀ (t : Option String) (c : Option CurrentDataWire) (now : ℤ),
        handlePostWire t c none now = Except.error "Missing required data") ∧
      (∀ (v : Option ℝ) (h : List PriceData) (now : ℤ),
        handlePostWire (some "BTC") (some ⟨none, v⟩) (some h) now =
          Except.ok (evaluateJs "BTC" ⟨none, v⟩ h now)) ∧
      (∀ (h : List ℝ) (t : String) (th : ℝ) (now : ℤ),
        detectZScoreAnomalyJs JsFloat.nan h t th now = none) ∧
      (∀ (h : List ℝ) (t : String) (w : ℕ) (th : ℝ) (now : ℤ),
        detectPriceDeviationJs JsFloat.nan h t w th now = none) ∧
      (∀ (cv : JsFloat) (hist : List PricePoint) (t : String) (th : ℝ) (now : ℤ),
        detectLOFAnomalyJs JsFloat.nan cv hist t th now = none) ∧
      (∀ (t : String) (v : Option ℝ) (h : List PriceData) (now : ℤ),
        (evaluateJs t ⟨none, v⟩ h now).anomalies =
          (detectVolumeSpikeAnomalyWire (toJs v) (h.map (·.volume)) t 3 now).toList) := by
  refine ⟨?_, ?_, ?_, ?_, ?_, ?_, ?_, ?_⟩
  · intro c h now
    cases c <;> cases h <;> rfl
  · intro t h now
    cases t <;> cases h <;> rfl
  · intro t c now
    cases t <;> cases c <;> rfl
  · intro v h now
    simp only [handlePostWire]
    rw [if_neg (by decide)]
  · exact detectZScoreAnomalyJs_nan
  · exact detectPriceDeviationJs_nan
  · exact detectLOFAnomalyJs_nan_price
  · exact evaluateJs_missing_price

/-! ### C7: the zero-mean volume case is not guarded -/

/-- C7 counterexample: ten historical volumes of 0 have mean 0; with
current volume 500 the source's unguarded division produces the ratio
+Infinity, which passes every severity gate: a critical finding with an
infinite score is emitted, violating the claimed guard. -/
theorem volspike_zero_mean_emits_infinite_score :
    (detectVolumeSpikeAnomalyJs 500 (List.replicate 10 0) "BTC" 3 0).map
        (fun f => (f.severity, f.score)) =
      some (Severity.critical, JsFloat.posInf) := by
  have hmean : mean (List.replicate 10 (0:ℝ)) = 0 := @mean_replicate 10 (0:ℝ) (by decide)
  have hr : jsDiv (JsFloat.fin 500) (JsFloat.fin 0) = JsFloat.posInf := by
    norm_num [jsDiv]
  simp only [detectVolumeSpikeAnomalyJs, hmean, hr, List.length_replicate]
  norm_num [jsGtR]

/-- C7 (amended): the volume-spike detector does not guard the zero-mean
case: with at least 10 historical volumes of mean 0, a positive current
volume yields the ratio +Infinity and a critical finding with infinite
score, while a zero current volume yields a NaN ratio and no finding. -/
theorem volspike_zero_mean_behaviour (cv th : ℝ) (h : List ℝ) (t : String) (now : ℤ)
    (hlen : ¬ h.length < 10) (hmean : mean h = 0) :
    (0 < cv → detectVolumeSpikeAnomalyJs cv h t th now =
        some ⟨.volume_spike, .critical, .posInf, th, now, t⟩) ∧
      (cv = 0 → detectVolumeSpikeAnomalyJs cv h t th now = none) := by
  constructor
  · intro hcv
    have hr : jsDiv (JsFloat.fin cv) (JsFloat.fin 0) = JsFloat.posInf := by
      simp [jsDiv, hcv]
    simp only [detectVolumeSpikeAnomalyJs, hmean, hr]
    rw [if_neg hlen]
    simp [jsGtR]
  · intro hcv
    subst hcv
    have hr : jsDiv (JsFloat.fin 0) (JsFloat.fin 0) = JsFloat.nan := by
      simp [jsDiv]
    simp only [detectVolumeSpikeAnomalyJs, hmean, hr]
    rw [if_neg hlen]
    simp [jsGtR]

theorem volspike_zero_mean_behaviour_witness :
    (0:ℝ) < 1 ∧
      detectVolumeSpikeAnomalyJs 1 (List.replicate 10 0) "ETH" 3 0 =
        some ⟨.volume_spike, .critical, .posInf, 3, 0, "ETH"⟩ :=
  ⟨zero_lt_one,
    (volspike_zero_mean_behaviour 1 3 (List.replicate 10 0) "ETH" 0 (by decide)
      (@mean_replicate 10 (0:ℝ) (by decide))).1 zero_lt_one⟩

/-! ### C9: the LOF detector on a fully constant history -/

theorem listMin_replicate {n : ℕ} (hn : n ≠ 0) (c : ℝ) :
    listMin (List.replicate n c) = c := by
  refine listMin_const ?_ fun x hx => List.eq_of_mem_replicate hx
  intro hnil
  exact hn (by simpa using congrArg List.length hnil)

theorem listMax_replicate {n : ℕ} (hn : n ≠ 0) (c : ℝ) :
    listMax (List.replicate n c) = c := by
  refine listMax_const ?_ fun x hx => List.eq_of_mem_replicate hx
  intro hnil
  exact hn (by simpa using congrArg List.length hnil)

theorem eraseIdx_replicate {α : Type} (a : α) (n i : ℕ) (h : i < n) :
    (List.replicate n a).eraseIdx i = List.replicate (n - 1) a := by
  induction n generalizing i with
  | zero => exact absurd h (Nat.not_lt_zero i)
  | succ m ih =>
    cases i with
    | zero =>
      rw [List.replicate_succ, List.eraseIdx_cons_zero]
      simp
    | succ j =>
      have hj : j < m := Nat.lt_of_succ_lt_succ h
      rw [List.replicate_succ, List.eraseIdx_cons_succ, ih j hj,
        show m + 1 - 1 = (m - 1) + 1 from by omega, List.replicate_succ]

theorem kDistanceOf_replicate (q p : PricePoint) (m k : ℕ) (hk : k ≠ 0) (hkm : k ≤ m) :
    kDistanceOf (List.replicate m q) p k = pointDistance p q := by
  rw [kDistanceOf, List.map_replicate, insertionSort_replicate, List.take_replicate]
  exact mean_replicate _ (by omega)

/-- C9: for a history of at least 20 constant `(price, volume)` pairs the
LOF detector divides only by the substituted denominator 1 (both min-max
ranges are zero, and the average historical k-distance is 0), raises no
division error, and returns either no finding or a finding whose score is
the well-defined finite number `sqrt((cp - p₀)² + (cv - v₀)²)`. -/
theorem lof_constant_history_well_defined (cp cv p₀ v₀ : ℝ) (hist : List PricePoint)
    (t : String) (th : ℝ) (now : ℤ) (hlen : 20 ≤ hist.length)
    (hc : ∀ d ∈ hist, d = ⟨p₀, v₀⟩) :
    detectLOFAnomaly cp cv hist t th now = none ∨
      ∃ f, detectLOFAnomaly cp cv hist t th now = some f ∧
        f.score = Real.sqrt ((cp - p₀) ^ 2 + (cv - v₀) ^ 2) := by
  obtain ⟨n, hn⟩ : ∃ n, hist.length = n := ⟨hist.length, rfl⟩
  have hrep : hist = List.replicate n ⟨p₀, v₀⟩ := List.eq_replicate_iff.mpr ⟨hn, hc⟩
  rw [hn] at hlen
  subst hrep
  have hn0 : n ≠ 0 := by omega
  have hlen' : ¬ (List.replicate n (⟨p₀, v₀⟩ : PricePoint)).length < 20 := by
    rw [List.length_replicate]
    omega
  simp only [detectLOFAnomaly]
  rw [if_neg hlen']
  simp only [List.map_replicate, List.length_replicate, listMin_replicate hn0,
    listMax_replicate hn0, sub_self, orOne_zero, div_one]
  rw [min_eq_left (show 5 ≤ n - 1 from by omega)]
  rw [kDistanceOf_replicate ⟨0, 0⟩ ⟨cp - p₀, cv - v₀⟩ n 5 (by omega) (by omega)]
  have hH : ((List.replicate n (⟨0, 0⟩ : PricePoint)).enum.map fun q =>
      kDistanceOf ((List.replicate n (⟨0, 0⟩ : PricePoint)).eraseIdx q.1) q.2 5) =
      List.replicate n (0 : ℝ) := by
    have hcongr : ∀ q ∈ (List.replicate n (⟨0, 0⟩ : PricePoint)).enum,
        kDistanceOf ((List.replicate n (⟨0, 0⟩ : PricePoint)).eraseIdx q.1) q.2 5 = (0 : ℝ) := by
      rintro ⟨i, p⟩ hq
      rw [List.mk_mem_enum_iff_getElem?, List.getElem?_replicate] at hq
      split at hq
      case isTrue hi =>
        injection hq with hq
        subst hq
        rw [eraseIdx_replicate _ n i hi,
          kDistanceOf_replicate ⟨0, 0⟩ ⟨0, 0⟩ (n - 1) 5 (by omega) (by omega)]
        simp [pointDistance]
      case isFalse => exact absurd hq (by simp)
    rw [List.map_congr_left hcongr, List.map_const', List.enum_length, List.length_replicate]
  rw [hH, @mean_replicate n (0 : ℝ) hn0, orOne_zero, div_one]
  have hD : pointDistance ⟨cp - p₀, cv - v₀⟩ ⟨0, 0⟩ =
      Real.sqrt ((cp - p₀) ^ 2 + (cv - v₀) ^ 2) := by
    simp [pointDistance]
  rw [hD]
  by_cases hgt : Real.sqrt ((cp - p₀) ^ 2 + (cv - v₀) ^ 2) > th
  · right
    exact ⟨_, by rw [if_pos hgt], rfl⟩
  · left
    rw [if_neg hgt]

theorem lof_constant_history_well_defined_witness :
    20 ≤ (List.replicate 20 (⟨8, 3⟩ : PricePoint)).length ∧
      (detectLOFAnomaly 9 4 (List.replicate 20 ⟨8, 3⟩) "BTC" 1.5 0 = none ∨
        ∃ f, detectLOFAnomaly 9 4 (List.replicate 20 ⟨8, 3⟩) "BTC" 1.5 0 = some f ∧
          f.score = Real.sqrt ((9 - 8) ^ 2 + (4 - 3) ^ 2)) :=
  ⟨by decide,
    lof_constant_history_well_defined 9 4 8 3 (List.replicate 20 ⟨8, 3⟩) "BTC" 1.5 0
      (by decide) fun d hd => List.eq_of_mem_replicate hd⟩

end Oracle
